import Mathlib

/-!
Verification of the `cloudflare-fs` repository (src/fs.js): a shallow
embedding of the Durable-Object-backed filesystem.

Each shard (Durable Object instance) owns one SQLite table `files`; rows
are `Entry` values and the table is a `Store` (a list of rows in rowid
order).  Every `DOFS.*` definition below is translated statement by
statement from the corresponding method of the `DOFS` class in
`src/fs.js`; the module-level facade functions (`copyFileF`, `cpF`,
`renameF`, ...) are translated from the exported functions of the same
file.  Timestamps (`Date.now()/1000`) are passed in as an explicit `now`
argument.  Recursive JS functions (`mkdir` with `recursive: true`, `cp`)
are embedded with an explicit fuel parameter; fuel exhaustion surfaces as
the extra error `FsErr.outOfFuel`, which no source-level error maps to.
-/

/-- The `type` column: `CHECK (type IN ('file', 'directory'))`. -/
inductive EType
  | file
  | directory
deriving DecidableEq, Repr

/-- One row of the `files` table (src/fs.js `initTables`).  `content` is
the BLOB column (file bytes, `none` for a NULL), sizes/ids/timestamps are
the INTEGER columns. -/
structure Entry where
  path : String
  parent_path : Option String
  name : String
  type : EType
  content : Option (List Nat)
  size : Nat
  mode : Nat
  uid : Nat
  gid : Nat
  mtime : Nat
  ctime : Nat
  atime : Nat
deriving DecidableEq, Repr

/-- The `files` table of one shard, rows in rowid (insertion) order. -/
abbrev Store := List Entry

/-- The error kinds thrown by src/fs.js (one constructor per distinct
`throw new Error(...)` message), plus `outOfFuel` for fuel exhaustion of
the embedded recursions. -/
inductive FsErr
  | sourceFileNotFound
  | destDirNotExist
  | sourceNotExist
  | recursionRequired
  | fileExistsNotDir
  | parentNotExist
  | parentNotDir
  | dirNotExist
  | notADirectory
  | fileNotExist
  | notAFile
  | dirNotEmpty
  | outOfFuel
deriving DecidableEq, Repr

/-- `true` on `Except.ok`. -/
def isOkB : Except FsErr α → Bool
  | .ok _ => true
  | .error _ => false

/-- The error of an `Except`, if any. -/
def errOf : Except FsErr α → Option FsErr
  | .ok _ => none
  | .error e => some e

/-- The value of an `Except`, if any. -/
def okOf : Except FsErr α → Option α
  | .ok a => some a
  | .error _ => none

/-- JS `a || b` for an optional number (`undefined` and `0` are falsy):
used for `options.mode || 0o777` and `options.mode || 0o666`. -/
def jsOrNat (o : Option Nat) (d : Nat) : Nat :=
  match o with
  | none => d
  | some m => if m = 0 then d else m

/-- JS `a || b` for an optional string (`undefined` and `""` are falsy):
used for `firstCreated || normalizedPath`. -/
def jsOrStr (o : Option String) (d : String) : String :=
  match o with
  | none => d
  | some s => if s = "" then d else s

/-- Strip trailing slashes: JS `path.replace(/\/+$/, "")`. -/
def stripTrailSlashes (l : List Char) : List Char :=
  (l.reverse.dropWhile (fun c => c == '/')).reverse

/-- Collapse runs of slashes: JS `path.replace(/\/+/g, "/")` — a slash
immediately followed by another slash is dropped. -/
def collapseSlashes : List Char → List Char
  | [] => []
  | c :: t =>
    if c = '/' then
      match t with
      | '/' :: _ => collapseSlashes t
      | _ => c :: collapseSlashes t
    else c :: collapseSlashes t

/-- The normalization used inline by `ensureParentExists` in src/fs.js:
`path.replace(/\/+$/, "").replace(/\/+/g, "/")` (no special case for
`"/"`). -/
def rawNormalize (p : String) : String :=
  ⟨collapseSlashes (stripTrailSlashes p.data)⟩

/-- `DOFS.normalizePath` from src/fs.js. -/
def normalizePath (p : String) : String :=
  if p = "/" then "/" else rawNormalize p

/-- Index of the last `'/'` in a character list (JS `lastIndexOf("/")`,
`none` standing for `-1`). -/
def lastSlashIdx : List Char → Option Nat
  | [] => none
  | c :: t =>
    match lastSlashIdx t with
    | some i => some (i + 1)
    | none => if c = '/' then some 0 else none

/-- `DOFS.getParentPath` from src/fs.js: `null` for `"/"`, else the text
before the last slash (`"/"` when `lastIndexOf("/") <= 0`). -/
def getParentPath (path : String) : Option String :=
  let normalized := normalizePath path
  if normalized = "/" then none
  else
    match lastSlashIdx normalized.data with
    | none => some "/"
    | some i => if i = 0 then some "/" else some ⟨normalized.data.take i⟩

/-- `DOFS.getFileName` from src/fs.js: `""` for `"/"`, else the text
after the last slash. -/
def getFileName (path : String) : String :=
  let normalized := normalizePath path
  if normalized = "/" then ""
  else
    match lastSlashIdx normalized.data with
    | none => normalized
    | some i => ⟨normalized.data.drop (i + 1)⟩

/-- ASCII lower-casing, as SQLite applies to `LIKE` operands. -/
def lowerChar (c : Char) : Char :=
  if 'A' ≤ c ∧ c ≤ 'Z' then Char.ofNat (c.toNat + 32) else c

/-- `f` holds of some suffix of the list (including the list itself and
`[]`): how a `%` wildcard consumes any run of characters. -/
def anySuffix (f : List Char → Bool) : List Char → Bool
  | [] => f []
  | c :: t => f (c :: t) || anySuffix f t

/-- SQLite `LIKE`: `%` matches any run, `_` any single character, other
characters compare ASCII-case-insensitively.  Used by `DOFS.rename` and
`DOFS.rm` for their `path LIKE '<p>/%'` subtree queries. -/
def likeMatch : List Char → List Char → Bool
  | [], s => s.isEmpty
  | '%' :: ps, s => anySuffix (likeMatch ps) s
  | '_' :: ps, s =>
    match s with
    | [] => false
    | _ :: t => likeMatch ps t
  | p :: ps, s =>
    match s with
    | [] => false
    | c :: t => (lowerChar p == lowerChar c) && likeMatch ps t

/-- JS `String.prototype.replace` with a string pattern: replaces the
first occurrence of `pat` in the subject (the third argument) by `rep`
(used by `DOFS.rename` on descendant paths). -/
def strReplaceFirst (pat rep : List Char) : List Char → List Char
  | [] => if pat = [] then rep else []
  | c :: t =>
    if pat.isPrefixOf (c :: t) then rep ++ (c :: t).drop pat.length
    else c :: strReplaceFirst pat rep t

/-- `SELECT * FROM files WHERE path = ? ... [0]`: the unique row with the
given primary key (first in rowid order). -/
def selectPath (st : Store) (p : String) : Option Entry :=
  st.find? (fun e => e.path == p)

/-- `INSERT OR REPLACE`: drop any row with the same primary key, append
the new row. -/
def insertOrReplace (st : Store) (e : Entry) : Store :=
  st.filter (fun x => !(x.path == e.path)) ++ [e]

/-- `getInstanceName` from src/fs.js: the regex
`^\/Users\/([^\/]+)` — a path beginning with `/Users/` followed by at
least one non-slash character yields that first segment, anything else
the `"default"` instance. -/
def getInstanceName (path : String) : String :=
  if ("/Users/".data).isPrefixOf path.data then
    let seg := (path.data.drop 7).takeWhile (fun c => !(c == '/'))
    if seg.isEmpty then "default" else ⟨seg⟩
  else "default"

/-- The Shard Router's `shardOf`, written from the spec's words (§4.2 /
§6): any path of the form `/Users/<name>/...` is owned by shard `<name>`
(the segment after `/Users/`); every other path is owned by the
`default` shard.  Stated separately from `getInstanceName` so the two
can be compared. -/
def shardOfSpec (path : String) : String :=
  if ['/', 'U', 's', 'e', 'r', 's', '/'].isPrefixOf path.data then
    let seg := (path.data.drop 7).takeWhile (fun c => !(c == '/'))
    if seg.isEmpty then "default" else ⟨seg⟩
  else "default"

/-- `DOFS.copyFile` (src/fs.js lines 347-384).  Note: `src` and `dest`
are used raw, without `normalizePath`; the `mode` parameter of the
source method is unused by its body and therefore omitted. -/
def DOFS.copyFile (src dest : String) (now : Nat) (st : Store) :
    Except FsErr Unit × Store :=
  match selectPath st src with
  | none => (.error .sourceFileNotFound, st)
  | some srcFile =>
    if srcFile.type ≠ EType.file then (.error .sourceFileNotFound, st)
    else
      let destParent := getParentPath dest
      let parentBad :=
        match destParent with
        | none => false
        | some pp =>
          if pp = "/" then false
          else
            match selectPath st pp with
            | none => true
            | some parent => parent.type ≠ EType.directory
      if parentBad then (.error .destDirNotExist, st)
      else
        (.ok (), insertOrReplace st
          { path := dest, parent_path := destParent, name := getFileName dest,
            type := EType.file, content := srcFile.content, size := srcFile.size,
            mode := srcFile.mode, uid := srcFile.uid, gid := srcFile.gid,
            mtime := now, ctime := now, atime := now })

/-- `DOFS.mkdir` (src/fs.js lines 428-480), with fuel bounding the
`recursive` self-call (the source recursion strictly shortens the path,
so any fuel above the path length is enough). -/
def DOFS.mkdirFuel (fuel : Nat) (path : String) (recursive : Bool)
    (modeOpt : Option Nat) (now : Nat) (st : Store) :
    Except FsErr (Option String) × Store :=
  match fuel with
  | 0 => (.error .outOfFuel, st)
  | fuel + 1 =>
    let normalizedPath := normalizePath path
    match selectPath st normalizedPath with
    | some existing =>
      if existing.type = EType.directory then (.ok none, st)
      else (.error .fileExistsNotDir, st)
    | none =>
      let parentPath := getParentPath normalizedPath
      let step : Except FsErr (Option String) × Store :=
        match parentPath with
        | none => (.ok none, st)
        | some pp =>
          if pp = "/" then (.ok none, st)
          else
            match selectPath st pp with
            | none =>
              if recursive then DOFS.mkdirFuel fuel pp recursive modeOpt now st
              else (.error .parentNotExist, st)
            | some parent =>
              if parent.type = EType.directory then (.ok none, st)
              else (.error .parentNotDir, st)
      match step with
      | (.error e, st') => (.error e, st')
      | (.ok firstCreated, st') =>
        let mode := jsOrNat modeOpt 0o777
        (.ok (some (jsOrStr firstCreated normalizedPath)),
         st' ++ [{ path := normalizedPath, parent_path := parentPath,
                   name := getFileName normalizedPath, type := EType.directory,
                   content := none, size := 0, mode := mode, uid := 0, gid := 0,
                   mtime := now, ctime := now, atime := now }])

/-- Stable insertion of an entry into a name-sorted list (`ORDER BY name`). -/
def insertByName (e : Entry) : List Entry → List Entry
  | [] => [e]
  | x :: t => if e.name ≤ x.name then e :: x :: t else x :: insertByName e t

/-- `ORDER BY name` ascending. -/
def sortByName (l : List Entry) : List Entry :=
  l.foldr insertByName []

/-- `DOFS.readdir` (src/fs.js lines 488-521), at
`options.withFileTypes = false`: the sorted child names. -/
def DOFS.readdir (path : String) (st : Store) :
    Except FsErr (List String) × Store :=
  let normalizedPath := normalizePath path
  match selectPath st normalizedPath with
  | none => (.error .dirNotExist, st)
  | some dir =>
    if dir.type ≠ EType.directory then (.error .notADirectory, st)
    else
      (.ok ((sortByName (st.filter
        (fun e => e.parent_path == some normalizedPath))).map (fun e => e.name)), st)

/-- `DOFS.readFileBuffer` (src/fs.js lines 528-546).  The path is used
raw; on success the row's `atime` is updated and the bytes returned are
`file.content || new ArrayBuffer(0)`. -/
def DOFS.readFileBuffer (path : String) (now : Nat) (st : Store) :
    Except FsErr (List Nat) × Store :=
  match selectPath st path with
  | none => (.error .fileNotExist, st)
  | some file =>
    if file.type ≠ EType.file then (.error .notAFile, st)
    else
      (.ok (file.content.getD []),
       st.map (fun e => if e.path == path then { e with atime := now } else e))

/-- `DOFS.readFile` (src/fs.js lines 554-571) at `options = undefined`:
no encoding is specified, so the buffer is returned as-is. -/
def DOFS.readFile (path : String) (now : Nat) (st : Store) :
    Except FsErr (List Nat) × Store :=
  DOFS.readFileBuffer path now st

/-- The `Stats` object built by `DOFS.stat` (timestamps kept in unix
seconds rather than wrapped in `Date`). -/
structure Stats where
  isFile : Bool
  isDirectory : Bool
  isSymbolicLink : Bool
  size : Nat
  mode : Nat
  uid : Nat
  gid : Nat
  mtime : Nat
  ctime : Nat
  atime : Nat
deriving DecidableEq, Repr

/-- The record literal returned by `DOFS.stat`. -/
def mkStats (f : Entry) : Stats :=
  { isFile := f.type = EType.file, isDirectory := f.type = EType.directory,
    isSymbolicLink := false, size := f.size, mode := f.mode, uid := f.uid,
    gid := f.gid, mtime := f.mtime, ctime := f.ctime, atime := f.atime }

/-- `DOFS.stat` (src/fs.js lines 687-707): a single `SELECT` on the raw
(unnormalized) path; the store is returned unchanged in every branch. -/
def DOFS.stat (path : String) (st : Store) : Except FsErr Stats × Store :=
  match selectPath st path with
  | none => (.error .fileNotExist, st)
  | some file => (.ok (mkStats file), st)

/-- `DOFS.rename` (src/fs.js lines 578-636).  After the row itself is
updated, a directory's descendants are found with
`path LIKE '<normalizedOld>/%'` and each has its path rewritten by the
first-occurrence string replace `child.path.replace(normalizedOld,
normalizedNew)`. -/
def DOFS.rename (oldPath newPath : String) (now : Nat) (st : Store) :
    Except FsErr Unit × Store :=
  let normalizedOld := normalizePath oldPath
  let normalizedNew := normalizePath newPath
  match selectPath st normalizedOld with
  | none => (.error .sourceNotExist, st)
  | some file =>
    let newParent := getParentPath normalizedNew
    let parentBad :=
      match newParent with
      | none => false
      | some pp =>
        if pp = "/" then false
        else
          match selectPath st pp with
          | none => true
          | some parent => parent.type ≠ EType.directory
    if parentBad then (.error .destDirNotExist, st)
    else
      let st1 := st.map (fun e =>
        if e.path == normalizedOld then
          { e with path := normalizedNew, parent_path := newParent,
                   name := getFileName normalizedNew, mtime := now }
        else e)
      if file.type = EType.directory then
        let children := st1.filter
          (fun e => likeMatch (normalizedOld.data ++ ['/', '%']) e.path.data)
        (.ok (), children.foldl (fun s child =>
          let newChildPath : String :=
            ⟨strReplaceFirst normalizedOld.data normalizedNew.data child.path.data⟩
          s.map (fun e =>
            if e.path == child.path then
              { e with path := newChildPath,
                       parent_path := getParentPath newChildPath }
            else e)) st1)
      else (.ok (), st1)

/-- `DOFS.rm` (src/fs.js lines 643-679). -/
def DOFS.rm (path : String) (recursive force : Bool) (st : Store) :
    Except FsErr Unit × Store :=
  let normalizedPath := normalizePath path
  match selectPath st normalizedPath with
  | none => if force then (.ok (), st) else (.error .fileNotExist, st)
  | some file =>
    let step : Except FsErr Unit × Store :=
      if file.type = EType.directory then
        if recursive then
          (.ok (), st.filter (fun e =>
            !(likeMatch (normalizedPath.data ++ ['/', '%']) e.path.data)))
        else
          if (st.filter (fun e => e.parent_path == some normalizedPath)).length > 0
          then (.error .dirNotEmpty, st)
          else (.ok (), st)
      else (.ok (), st)
    match step with
    | (.error e, s) => (.error e, s)
    | (.ok _, s) => (.ok (), s.filter (fun e => !(e.path == normalizedPath)))

/-- `DOFS.writeFileBuffer` (src/fs.js lines 715-774): parent check on
the normalized path, then update-or-insert.  Note the existing row is
updated whatever its `type` is. -/
def DOFS.writeFileBuffer (path : String) (data : List Nat)
    (modeOpt : Option Nat) (now : Nat) (st : Store) :
    Except FsErr Unit × Store :=
  let normalizedPath := normalizePath path
  let parentPath := getParentPath normalizedPath
  let parentBad :=
    match parentPath with
    | none => false
    | some pp =>
      if pp = "/" then false
      else
        match selectPath st pp with
        | none => true
        | some parent => parent.type ≠ EType.directory
  if parentBad then (.error .parentNotExist, st)
  else
    let size := data.length
    let mode := jsOrNat modeOpt 0o666
    match selectPath st normalizedPath with
    | some _ =>
      (.ok (), st.map (fun e =>
        if e.path == normalizedPath then
          { e with content := some data, size := size, mode := mode,
                   mtime := now, atime := now }
        else e))
    | none =>
      (.ok (), st ++ [{ path := normalizedPath, parent_path := parentPath,
                        name := getFileName normalizedPath, type := EType.file,
                        content := some data, size := size, mode := mode,
                        uid := 0, gid := 0, mtime := now, ctime := now,
                        atime := now }])

/-- `DOFS.writeFile` (src/fs.js lines 782-808) at a byte payload
(`ArrayBuffer`/`Uint8Array` branch): the bytes and the options' `mode`
are handed to `writeFileBuffer` unchanged. -/
def DOFS.writeFile (path : String) (data : List Nat) (modeOpt : Option Nat)
    (now : Nat) (st : Store) : Except FsErr Unit × Store :=
  DOFS.writeFileBuffer path data modeOpt now st

/-- `DOFS.cp` (src/fs.js lines 392-420), fuel bounding the recursion on
children.  The inner `this.mkdir(dest, { recursive: true })` is given
the same fuel. -/
def DOFS.cpFuel (fuel : Nat) (src dest : String) (recursive : Bool)
    (now : Nat) (st : Store) : Except FsErr Unit × Store :=
  match fuel with
  | 0 => (.error .outOfFuel, st)
  | fuel + 1 =>
    match selectPath st src with
    | none => (.error .sourceNotExist, st)
    | some srcFile =>
      if srcFile.type = EType.file then DOFS.copyFile src dest now st
      else
        if recursive then
          match DOFS.mkdirFuel fuel dest true none now st with
          | (.error e, st1) => (.error e, st1)
          | (.ok _, st1) =>
            (st1.filter (fun e => e.parent_path == some src)).foldl
              (fun acc child =>
                match acc with
                | (.error e, s) => (.error e, s)
                | (.ok _, s) =>
                  DOFS.cpFuel fuel child.path (dest ++ "/" ++ child.name)
                    recursive now s)
              ((.ok (), st1) : Except FsErr Unit × Store)
        else (.error .recursionRequired, st)

/-- Modelled from the spec: the shard-execution environment.  The
namespace of Durable Object instances is not part of src/fs.js (it is
the host runtime reached through `env.DOFS`); §4.2 of the specification
fixes its boundary: `handle(shardId)` yields a handle with stable
identity — "same id always yields a handle to the same underlying
store".  We therefore model the global state as the map from instance
names to their stores (a fresh instance has an empty `files` table), and
the source's `srcInstance === destInstance` comparison holds exactly
when the two instance names are equal. -/
def GState := String → Store

/-- The store of the named instance. -/
def getShard (g : GState) (n : String) : Store := g n

/-- Replace the store of the named instance. -/
def setShard (g : GState) (n : String) (st : Store) : GState :=
  fun m => if m = n then st else g m

/-- Run a Tree Store primitive on the single named shard and write its
store back: the "single-shard" route of the facade. -/
def runOn (n : String) (g : GState) (act : Store → Except FsErr α × Store) :
    Except FsErr α × GState :=
  let r := act (getShard g n)
  (r.1, setShard g n r.2)

/-- Facade `stat` (src/fs.js lines 256-259): dispatch to the instance
owning the path. -/
def statF (path : String) (g : GState) : Except FsErr Stats × GState :=
  runOn (getInstanceName path) g (DOFS.stat path)

/-- Facade `mkdir` (src/fs.js lines 190-193). -/
def mkdirF (fuel : Nat) (path : String) (recursive : Bool)
    (modeOpt : Option Nat) (now : Nat) (g : GState) :
    Except FsErr (Option String) × GState :=
  runOn (getInstanceName path) g (DOFS.mkdirFuel fuel path recursive modeOpt now)

/-- Facade `readdir` (src/fs.js lines 203-206), without `withFileTypes`. -/
def readdirF (path : String) (g : GState) : Except FsErr (List String) × GState :=
  runOn (getInstanceName path) g (DOFS.readdir path)

/-- Facade `rm` (src/fs.js lines 244-247). -/
def rmF (path : String) (recursive force : Bool) (g : GState) :
    Except FsErr Unit × GState :=
  runOn (getInstanceName path) g (DOFS.rm path recursive force)

/-- `ensureParentExists` (src/fs.js lines 111-126): normalize inline,
bail out for root-or-segmentless paths, then `stat` the parent and, if
that throws, `mkdir` it recursively.  Both the `stat` and the `mkdir`
are facade calls, routed by the parent path's own instance name. -/
def ensureParentExists (path : String) (fuel now : Nat) (g : GState) :
    Except FsErr Unit × GState :=
  let normalized := rawNormalize path
  if normalized = "/" ∨ ¬ normalized.data.contains '/' then (.ok (), g)
  else
    let parentPath :=
      match lastSlashIdx normalized.data with
      | none => "/"
      | some i => if i = 0 then "/" else (⟨normalized.data.take i⟩ : String)
    if parentPath = "/" then (.ok (), g)
    else
      match statF parentPath g with
      | (.ok _, g') => (.ok (), g')
      | (.error _, g') =>
        match mkdirF fuel parentPath true none now g' with
        | (.ok _, g'') => (.ok (), g'')
        | (.error e, g'') => (.error e, g'')

/-- The cross-instance branch of facade `copyFile` (src/fs.js lines
141-148), indexed by how many of its four sequential remote operations
run before an interruption: 1 `ensureParentExists dest`, 2
`srcInstance.readFileBuffer(src)`, 3 `srcInstance.stat(src)`, 4
`destInstance.writeFileBuffer(dest, content, { mode: stats.mode })`.
`crossCopySteps 4` is the complete branch as the source runs it. -/
def crossCopySteps (k fuel : Nat) (src dest : String) (now : Nat)
    (g : GState) : Except FsErr Unit × GState :=
  if k = 0 then (.ok (), g) else
  match ensureParentExists dest fuel now g with
  | (.error e, g1) => (.error e, g1)
  | (.ok _, g1) =>
    if k = 1 then (.ok (), g1) else
    match runOn (getInstanceName src) g1 (DOFS.readFileBuffer src now) with
    | (.error e, g2) => (.error e, g2)
    | (.ok content, g2) =>
      if k = 2 then (.ok (), g2) else
      match runOn (getInstanceName src) g2 (DOFS.stat src) with
      | (.error e, g3) => (.error e, g3)
      | (.ok stats, g3) =>
        if k = 3 then (.ok (), g3) else
        runOn (getInstanceName dest) g3
          (DOFS.writeFileBuffer dest content (some stats.mode) now)

/-- Facade `copyFile` (src/fs.js lines 135-149): the single-shard
primitive when source and destination resolve to the same instance,
otherwise the four-step cross-instance sequence. -/
def copyFileF (fuel : Nat) (src dest : String) (now : Nat) (g : GState) :
    Except FsErr Unit × GState :=
  if getInstanceName src = getInstanceName dest then
    runOn (getInstanceName src) g (DOFS.copyFile src dest now)
  else crossCopySteps 4 fuel src dest now g

/-- Facade `cp` (src/fs.js lines 158-182), fuel bounding the recursion
over directory children in the cross-instance branch. -/
def cpF (fuel : Nat) (src dest : String) (recursive : Bool) (now : Nat)
    (g : GState) : Except FsErr Unit × GState :=
  match fuel with
  | 0 => (.error .outOfFuel, g)
  | fuel + 1 =>
    if getInstanceName src = getInstanceName dest then
      runOn (getInstanceName src) g (DOFS.cpFuel fuel src dest recursive now)
    else
      match statF src g with
      | (.error e, g1) => (.error e, g1)
      | (.ok stats, g1) =>
        if stats.isDirectory then
          if recursive then
            match mkdirF fuel dest true none now g1 with
            | (.error e, g2) => (.error e, g2)
            | (.ok _, g2) =>
              match runOn (getInstanceName src) g2 (DOFS.readdir src) with
              | (.error e, g3) => (.error e, g3)
              | (.ok entries, g3) =>
                entries.foldl (fun acc entry =>
                  match acc with
                  | (.error e, gg) => (.error e, gg)
                  | (.ok _, gg) =>
                    cpF fuel (src ++ "/" ++ entry) (dest ++ "/" ++ entry)
                      recursive now gg)
                  ((.ok (), g3) : Except FsErr Unit × GState)
          else (.error .recursionRequired, g1)
        else
          match ensureParentExists dest fuel now g1 with
          | (.error e, g2) => (.error e, g2)
          | (.ok _, g2) =>
            match runOn (getInstanceName src) g2 (DOFS.readFileBuffer src now) with
            | (.error e, g3) => (.error e, g3)
            | (.ok content, g3) =>
              runOn (getInstanceName dest) g3
                (DOFS.writeFileBuffer dest content (some stats.mode) now)

/-- Facade `rename` (src/fs.js lines 225-236): the single-shard
primitive when both paths resolve to the same instance, otherwise
`cp(old, new, { recursive: true })` followed by
`rm(old, { recursive: true })`. -/
def renameF (fuel : Nat) (oldPath newPath : String) (now : Nat)
    (g : GState) : Except FsErr Unit × GState :=
  if getInstanceName oldPath = getInstanceName newPath then
    runOn (getInstanceName oldPath) g (DOFS.rename oldPath newPath now)
  else
    match cpF fuel oldPath newPath true now g with
    | (.error e, g1) => (.error e, g1)
    | (.ok _, g1) => rmF oldPath true false g1

/-- The cross-instance branch of facade `cp` (src/fs.js lines 164-181),
written out as its own definition so theorems can name it; for
different-instance paths `cpF (fuel+1)` runs exactly this branch (the
recursion over children re-enters the facade `cpF` with the remaining
fuel). -/
def cpCrossBranch (fuel : Nat) (src dest : String) (recursive : Bool)
    (now : Nat) (g : GState) : Except FsErr Unit × GState :=
  match statF src g with
  | (.error e, g1) => (.error e, g1)
  | (.ok stats, g1) =>
    if stats.isDirectory then
      if recursive then
        match mkdirF fuel dest true none now g1 with
        | (.error e, g2) => (.error e, g2)
        | (.ok _, g2) =>
          match runOn (getInstanceName src) g2 (DOFS.readdir src) with
          | (.error e, g3) => (.error e, g3)
          | (.ok entries, g3) =>
            entries.foldl (fun acc entry =>
              match acc with
              | (.error e, gg) => (.error e, gg)
              | (.ok _, gg) =>
                cpF fuel (src ++ "/" ++ entry) (dest ++ "/" ++ entry)
                  recursive now gg)
              ((.ok (), g3) : Except FsErr Unit × GState)
      else (.error .recursionRequired, g1)
    else
      match ensureParentExists dest fuel now g1 with
      | (.error e, g2) => (.error e, g2)
      | (.ok _, g2) =>
        match runOn (getInstanceName src) g2 (DOFS.readFileBuffer src now) with
        | (.error e, g3) => (.error e, g3)
        | (.ok content, g3) =>
          runOn (getInstanceName dest) g3
            (DOFS.writeFileBuffer dest content (some stats.mode) now)

/-- The cross-instance branch of facade `rename` (src/fs.js lines
231-235): `cp(old, new, { recursive: true })` then
`rm(old, { recursive: true })`. -/
def renameCross (fuel : Nat) (oldPath newPath : String) (now : Nat)
    (g : GState) : Except FsErr Unit × GState :=
  match cpF fuel oldPath newPath true now g with
  | (.error e, g1) => (.error e, g1)
  | (.ok _, g1) => rmF oldPath true false g1

/-- Row constructor with the fields every example shares defaulted
(`uid = gid = 0`, as every code path of src/fs.js writes them). -/
def mkRow (p : String) (pp : Option String) (nm : String) (ty : EType)
    (c : Option (List Nat)) (sz mo mt ct at_ : Nat) : Entry :=
  { path := p, parent_path := pp, name := nm, type := ty, content := c,
    size := sz, mode := mo, uid := 0, gid := 0, mtime := mt, ctime := ct,
    atime := at_ }

/-- The empty instance map: every shard starts with an empty table. -/
def emptyG : GState := fun _ => []

/-- Shard contents for the rename boundary experiment: a directory
`/a_b`, its child file `/a_b/kid`, a sibling directory `/azb` and the
unrelated file `/azb/a_b` that merely contains `a_b` in its path. -/
def renameStore : Store :=
  [ mkRow "/a_b" (some "/") "a_b" EType.directory none 0 0o777 1 1 1,
    mkRow "/a_b/kid" (some "/a_b") "kid" EType.file (some [3]) 1 0o666 1 1 1,
    mkRow "/azb" (some "/") "azb" EType.directory none 0 0o777 1 1 1,
    mkRow "/azb/a_b" (some "/azb") "a_b" EType.file (some [9]) 1 0o644 1 1 1 ]

/-- A store holding just the directory `/d`. -/
def dirOnlyStore : Store :=
  [ mkRow "/d" (some "/") "d" EType.directory none 0 0o777 5 5 5 ]

/-- A store holding the directory `/a` and the file `/a/f`. -/
def fileStore : Store :=
  [ mkRow "/a" (some "/") "a" EType.directory none 0 0o777 1 1 1,
    mkRow "/a/f" (some "/a") "f" EType.file (some [1]) 1 0o666 1 1 1 ]

/-- A store holding just the directory `/a`. -/
def parentOnlyStore : Store :=
  [ mkRow "/a" (some "/") "a" EType.directory none 0 0o777 1 1 1 ]

/-- The alice-shard source row of `crossG6`. -/
def aliceRow : Entry :=
  mkRow "/Users/alice/x.txt" (some "/Users/alice") "x.txt" EType.file
    (some [1, 2]) 2 0o644 10 10 10

/-- Instance map for the cross-shard interruption experiment: the
`default` shard holds the file `/x` (atime 10); every other shard is
empty. -/
def crossG5 : GState := fun n =>
  if n = "default" then
    [ mkRow "/x" (some "/") "x" EType.file (some [1, 2]) 2 0o644 10 10 10 ]
  else []

/-- Instance map for the cross-shard copy experiment: alice's shard
holds `/Users/alice/x.txt` (atime 10), bob's shard holds the directories
`/Users` and `/Users/bob`. -/
def crossG6 : GState := fun n =>
  if n = "alice" then
    [ mkRow "/Users" (some "/") "Users" EType.directory none 0 0o777 1 1 1,
      mkRow "/Users/alice" (some "/Users") "alice" EType.directory none 0 0o777 1 1 1,
      mkRow "/Users/alice/x.txt" (some "/Users/alice") "x.txt" EType.file
        (some [1, 2]) 2 0o644 10 10 10 ]
  else if n = "bob" then
    [ mkRow "/Users" (some "/") "Users" EType.directory none 0 0o777 1 1 1,
      mkRow "/Users/bob" (some "/Users") "bob" EType.directory none 0 0o777 1 1 1 ]
  else []

theorem getShard_setShard (g : GState) (n m : String) (st : Store) :
    getShard (setShard g n st) m = if m = n then st else getShard g m := rfl

theorem selectPath_append_left {st : Store} {p : String} {e : Entry}
    (h : selectPath st p = some e) (l : Store) :
    selectPath (st ++ l) p = some e := by
  induction st with
  | nil => simp [selectPath, List.find?] at h
  | cons x t ih =>
    simp only [selectPath, List.find?, List.cons_append] at h ⊢
    cases hx : (x.path == p) with
    | true => rw [hx] at h; simpa [hx] using h
    | false => rw [hx] at h; simp only [hx]; exact ih h

theorem selectPath_append_none {st : Store} {p : String}
    (h : selectPath st p = none) (l : Store) :
    selectPath (st ++ l) p = selectPath l p := by
  induction st with
  | nil => rfl
  | cons x t ih =>
    simp only [selectPath, List.find?, List.cons_append] at h ⊢
    cases hx : (x.path == p) with
    | true => rw [hx] at h; exact absurd h (by simp)
    | false => rw [hx] at h; simp only [hx]; exact ih h


theorem selectPath_map_update_self (st : Store) (p : String)
    (f : Entry → Entry) (hf : ∀ e, (f e).path = e.path) :
    selectPath (st.map (fun e => if e.path == p then f e else e)) p
      = (selectPath st p).map f := by
  induction st with
  | nil => rfl
  | cons x t ih =>
    simp only [List.map_cons, selectPath, List.find?] at ih ⊢
    by_cases hx : x.path = p
    · have hbx : (x.path == p) = true := beq_iff_eq.mpr hx
      have h1 : (if x.path == p then f x else x) = f x := if_pos hbx
      rw [h1, hf x, hbx]
      rfl
    · have hbx : (x.path == p) = false := beq_eq_false_iff_ne.mpr hx
      have h1 : (if x.path == p then f x else x) = x := if_neg (by simp [hbx])
      rw [h1, hbx]
      exact ih

theorem stat_store_eq (p : String) (st : Store) : (DOFS.stat p st).2 = st := by
  unfold DOFS.stat
  cases selectPath st p <;> rfl

theorem stat_spec (p : String) (st : Store) :
    (∃ f, selectPath st p = some f ∧ DOFS.stat p st = (.ok (mkStats f), st))
    ∨ (selectPath st p = none ∧ DOFS.stat p st = (.error .fileNotExist, st)) := by
  unfold DOFS.stat
  split
  · next hf => right; exact ⟨hf, rfl⟩
  · next f hf => left; exact ⟨f, hf, rfl⟩

theorem readFileBuffer_spec (p : String) (now : Nat) (st : Store) :
    (∃ f, selectPath st p = some f ∧ f.type = EType.file ∧
       DOFS.readFileBuffer p now st
         = (.ok (f.content.getD []),
            st.map (fun e => if e.path == p then { e with atime := now } else e)))
    ∨ (isOkB (DOFS.readFileBuffer p now st).1 = false
       ∧ (DOFS.readFileBuffer p now st).2 = st) := by
  unfold DOFS.readFileBuffer
  split
  · right; exact ⟨rfl, rfl⟩
  · next f hf =>
    split
    · right; exact ⟨rfl, rfl⟩
    · next ht => left; exact ⟨f, hf, not_ne_iff.mp ht, rfl⟩

theorem writeFileBuffer_spec (p : String) (data : List Nat)
    (modeOpt : Option Nat) (now : Nat) (st : Store) :
    (∃ e, selectPath st (normalizePath p) = some e ∧
       DOFS.writeFileBuffer p data modeOpt now st
         = (.ok (), st.map (fun x => if x.path == normalizePath p then
             { x with content := some data, size := data.length,
                      mode := jsOrNat modeOpt 0o666, mtime := now, atime := now }
           else x)))
    ∨ (selectPath st (normalizePath p) = none ∧
       DOFS.writeFileBuffer p data modeOpt now st
         = (.ok (), st ++ [{ path := normalizePath p,
                             parent_path := getParentPath (normalizePath p),
                             name := getFileName (normalizePath p),
                             type := EType.file, content := some data,
                             size := data.length,
                             mode := jsOrNat modeOpt 0o666, uid := 0, gid := 0,
                             mtime := now, ctime := now, atime := now }]))
    ∨ (isOkB (DOFS.writeFileBuffer p data modeOpt now st).1 = false
       ∧ (DOFS.writeFileBuffer p data modeOpt now st).2 = st) := by
  simp only [DOFS.writeFileBuffer]
  split
  · right; right; exact ⟨rfl, rfl⟩
  · split
    · next e he => left; exact ⟨e, he, rfl⟩
    · next he => right; left; exact ⟨he, rfl⟩

theorem mkdirFuel_append (fuel : Nat) (path : String) (recursive : Bool)
    (modeOpt : Option Nat) (now : Nat) (st : Store) :
    ∃ ds, (DOFS.mkdirFuel fuel path recursive modeOpt now st).2 = st ++ ds ∧
      ∀ d ∈ ds, d.type = EType.directory := by
  induction fuel generalizing path st with
  | zero => exact ⟨[], by simp [DOFS.mkdirFuel], by simp⟩
  | succ fuel ih =>
    simp only [DOFS.mkdirFuel]
    split
    · split
      · exact ⟨[], by simp, by simp⟩
      · exact ⟨[], by simp, by simp⟩
    · split
      · next e st' heq =>
        -- the `step` computation errored with store st'
        split at heq
        · injection heq with h1 h2; injection h1
        · split at heq
          · injection heq with h1 h2; injection h1
          · split at heq
            · split at heq
              · -- recursive parent mkdir errored
                obtain ⟨ds₀, h₀, hd₀⟩ := ih _ st
                rw [heq] at h₀
                exact ⟨ds₀, h₀, hd₀⟩
              · injection heq with h1 h2
                subst h2
                exact ⟨[], by simp, by simp⟩
            · split at heq
              · injection heq with h1 h2; injection h1
              · injection heq with h1 h2
                subst h2
                exact ⟨[], by simp, by simp⟩
      · next fc st' heq =>
        -- the `step` computation succeeded with store st'
        split at heq
        · injection heq with h1 h2
          subst h2
          exact ⟨[_], rfl, by simp⟩
        · split at heq
          · injection heq with h1 h2
            subst h2
            exact ⟨[_], rfl, by simp⟩
          · split at heq
            · split at heq
              · -- recursive parent mkdir succeeded
                obtain ⟨ds₀, h₀, hd₀⟩ := ih _ st
                rw [heq] at h₀
                have h₀' : st' = st ++ ds₀ := h₀
                refine ⟨ds₀ ++
                  [{ path := normalizePath path,
                     parent_path := getParentPath (normalizePath path),
                     name := getFileName (normalizePath path),
                     type := EType.directory, content := none, size := 0,
                     mode := jsOrNat modeOpt 0o777, uid := 0, gid := 0,
                     mtime := now, ctime := now, atime := now }], ?_, ?_⟩
                · show st' ++ _ = st ++ (ds₀ ++ _)
                  rw [h₀', List.append_assoc]
                · intro d hd
                  rcases List.mem_append.mp hd with h | h
                  · exact hd₀ d h
                  · simp only [List.mem_singleton] at h
                    subst h; rfl
              · injection heq with h1 h2; injection h1
            · split at heq
              · injection heq with h1 h2
                subst h2
                exact ⟨[_], rfl, by simp⟩
              · injection heq with h1 h2; injection h1

theorem statF_shard (p : String) (g : GState) (n : String) :
    getShard (statF p g).2 n = getShard g n := by
  simp only [statF, runOn]
  rw [stat_store_eq, getShard_setShard]
  by_cases hn : n = getInstanceName p
  · rw [if_pos hn, hn]
  · rw [if_neg hn]

theorem mkdirF_shard (fuel : Nat) (p : String) (recursive : Bool)
    (modeOpt : Option Nat) (now : Nat) (g : GState) (n : String) :
    ∃ ds, getShard (mkdirF fuel p recursive modeOpt now g).2 n
        = getShard g n ++ ds ∧ ∀ d ∈ ds, d.type = EType.directory := by
  obtain ⟨ds, hds, hdir⟩ :=
    mkdirFuel_append fuel p recursive modeOpt now (getShard g (getInstanceName p))
  simp only [mkdirF, runOn]
  rw [getShard_setShard]
  by_cases hn : n = getInstanceName p
  · exact ⟨ds, by rw [if_pos hn, hds, hn], hdir⟩
  · exact ⟨[], by rw [if_neg hn, List.append_nil], by simp⟩

theorem ensure_shards (path : String) (fuel now : Nat) (g : GState)
    (n : String) :
    ∃ ds, getShard (ensureParentExists path fuel now g).2 n
        = getShard g n ++ ds ∧ ∀ d ∈ ds, d.type = EType.directory := by
  simp only [ensureParentExists]
  split
  · exact ⟨[], by simp, by simp⟩
  · split
    · exact ⟨[], by simp, by simp⟩
    · split
      · next u g1 heq =>
        have h3 : (statF _ g).2 = g1 := congrArg Prod.snd heq
        have h2 : getShard g1 n = getShard g n := by
          rw [← h3]; exact statF_shard _ g n
        exact ⟨[], by simpa using h2, by simp⟩
      · next e g1 heq =>
        have h3 : (statF _ g).2 = g1 := congrArg Prod.snd heq
        have h2 : ∀ m, getShard g1 m = getShard g m := by
          intro m
          rw [← h3]; exact statF_shard _ g m
        split
        · next u g2 heq2 =>
          obtain ⟨ds, hds, hdir⟩ := mkdirF_shard fuel _ true none now g1 n
          have h4 : (mkdirF fuel _ true none now g1).2 = g2 :=
            congrArg Prod.snd heq2
          rw [h4] at hds
          exact ⟨ds, by rw [show getShard g2 n = getShard g1 n ++ ds from hds, h2], hdir⟩
        · next e2 g2 heq2 =>
          obtain ⟨ds, hds, hdir⟩ := mkdirF_shard fuel _ true none now g1 n
          have h4 : (mkdirF fuel _ true none now g1).2 = g2 :=
            congrArg Prod.snd heq2
          rw [h4] at hds
          exact ⟨ds, by rw [show getShard g2 n = getShard g1 n ++ ds from hds, h2], hdir⟩

/-- C1: the claim fails on the code.  With the directory `/a_b` renamed
to `/c`, the unrelated file `/azb/a_b` — **outside** the `/a_b` subtree —
matches the SQL pattern `/a_b/%` (the `_` is a single-character
wildcard), its embedded `/a_b` substring is replaced, and the row is
relocated to `/azb/c`; the genuine descendant `/a_b/kid` is moved to
`/c/kid` as the claim describes.  The specification itself (§9) calls
the source's substring-replace rename a defect to be fixed, so this is a
code bug rather than a spec error. -/
theorem rename_moves_entry_outside_subtree :
    isOkB (DOFS.rename "/a_b" "/c" 100 renameStore).1 = true ∧
    selectPath renameStore "/azb/a_b"
      = some (mkRow "/azb/a_b" (some "/azb") "a_b" EType.file (some [9]) 1
          0o644 1 1 1) ∧
    selectPath (DOFS.rename "/a_b" "/c" 100 renameStore).2 "/azb/a_b" = none ∧
    selectPath (DOFS.rename "/a_b" "/c" 100 renameStore).2 "/azb/c"
      = some (mkRow "/azb/c" (some "/azb") "a_b" EType.file (some [9]) 1
          0o644 1 1 1) ∧
    selectPath (DOFS.rename "/a_b" "/c" 100 renameStore).2 "/c/kid"
      = some (mkRow "/c/kid" (some "/c") "kid" EType.file (some [3]) 1
          0o666 1 1 1) := by
  decide

/-- C3: the claim fails on the code.  `writeFileBuffer` looks up the
existing row without checking its `type`, so writing to a path occupied
by the directory `/d` updates that directory row in place: afterwards it
still has `type = directory` but carries `content = some [7]` and
`size = 1`, violating the invariant that a directory row has NULL
content and size 0. -/
theorem writeFile_on_directory_stores_content :
    isOkB (DOFS.writeFileBuffer "/d" [7] none 9 dirOnlyStore).1 = true ∧
    selectPath (DOFS.writeFileBuffer "/d" [7] none 9 dirOnlyStore).2 "/d"
      = some (mkRow "/d" (some "/") "d" EType.directory (some [7]) 1
          0o666 9 5 9) ∧
    (mkRow "/d" (some "/") "d" EType.directory (some [7]) 1
        0o666 9 5 9).type = EType.directory ∧
    (mkRow "/d" (some "/") "d" EType.directory (some [7]) 1
        0o666 9 5 9).content ≠ none ∧
    (mkRow "/d" (some "/") "d" EType.directory (some [7]) 1
        0o666 9 5 9).size ≠ 0 := by
  decide

/-- C4: the claim fails on the code.  `DOFS.stat` and `DOFS.readFile`
query the raw path; `/a//f` and its normalized form `/a/f` differ only
by a redundant separator, yet `stat`/`readFile` succeed on `/a/f` and
fail with `fileNotExist` on `/a//f`. -/
theorem stat_not_normalized :
    normalizePath "/a//f" = "/a/f" ∧ ("/a//f" : String) ≠ "/a/f" ∧
    errOf (DOFS.stat "/a//f" fileStore).1 = some FsErr.fileNotExist ∧
    isOkB (DOFS.stat "/a/f" fileStore).1 = true ∧
    errOf (DOFS.readFile "/a//f" 2 fileStore).1 = some FsErr.fileNotExist ∧
    isOkB (DOFS.readFile "/a/f" 2 fileStore).1 = true := by
  decide

/-- C5 counterexample: interrupting the cross-shard copy of `/x`
(default shard) to `/Users/bob/d/f` (bob's shard) right after the read
— before the destination write — does **not** leave the two shards
unchanged: `ensureParentExists` has already created `/Users`,
`/Users/bob` and `/Users/bob/d` in bob's shard, and the read has already
bumped `/x`'s atime in the default shard. -/
theorem crossCopy_interrupted_state_changed :
    isOkB (crossCopySteps 2 9 "/x" "/Users/bob/d/f" 20 crossG5).1 = true ∧
    getInstanceName "/x" ≠ getInstanceName "/Users/bob/d/f" ∧
    getShard (crossCopySteps 2 9 "/x" "/Users/bob/d/f" 20 crossG5).2 "bob"
      ≠ getShard crossG5 "bob" ∧
    getShard (crossCopySteps 2 9 "/x" "/Users/bob/d/f" 20 crossG5).2 "default"
      ≠ getShard crossG5 "default" := by
  decide

/-- C6 counterexample: the successful cross-shard copy of alice's
`/Users/alice/x.txt` to bob's shard does **not** leave every field of
the source row unchanged — `readFileBuffer` updates its atime from 10 to
the operation time 99. -/
theorem crossCopy_bumps_source_atime :
    isOkB (copyFileF 9 "/Users/alice/x.txt" "/Users/bob/x.txt" 99 crossG6).1
      = true ∧
    getInstanceName "/Users/alice/x.txt" ≠ getInstanceName "/Users/bob/x.txt" ∧
    selectPath (getShard crossG6 "alice") "/Users/alice/x.txt"
      = some (mkRow "/Users/alice/x.txt" (some "/Users/alice") "x.txt"
          EType.file (some [1, 2]) 2 0o644 10 10 10) ∧
    selectPath
        (getShard (copyFileF 9 "/Users/alice/x.txt" "/Users/bob/x.txt" 99
          crossG6).2 "alice") "/Users/alice/x.txt"
      = some (mkRow "/Users/alice/x.txt" (some "/Users/alice") "x.txt"
          EType.file (some [1, 2]) 2 0o644 10 10 99) ∧
    (10 : Nat) ≠ 99 := by
  decide

/-- C7 counterexample: a `writeFile` that creates a new entry with no
mode option stores mode `0o666` (= 438), not the claimed `0o644`
(= 420) — the source default is `options.mode || 0o666`. -/
theorem writeFile_default_mode_not_644 :
    isOkB (DOFS.writeFileBuffer "/f" [1] none 50 ([] : Store)).1 = true ∧
    selectPath (DOFS.writeFileBuffer "/f" [1] none 50 ([] : Store)).2 "/f"
      = some (mkRow "/f" (some "/") "f" EType.file (some [1]) 1 0o666
          50 50 50) ∧
    (0o666 : Nat) ≠ 0o644 := by
  decide

/-- C9 counterexample: with the directory `/a` present, `writeFile` on
the un-normalized path `/a//f` succeeds (storing the row under the
normalized key `/a/f`), but the immediately following `readFile` on the
same string `/a//f` fails with `fileNotExist`, because `readFileBuffer`
looks the raw path up; the write-then-read round-trip fails for this
`p`. -/
theorem writeFile_readFile_roundtrip_fails_unnormalized :
    isOkB (DOFS.writeFileBuffer "/a//f" [1] none 10 parentOnlyStore).1
      = true ∧
    errOf (DOFS.readFile "/a//f" 11
        (DOFS.writeFileBuffer "/a//f" [1] none 10 parentOnlyStore).2).1
      = some FsErr.fileNotExist ∧
    okOf (DOFS.readFile "/a/f" 11
        (DOFS.writeFileBuffer "/a//f" [1] none 10 parentOnlyStore).2).1
      = some [1] := by
  decide

theorem selectPath_eq_path {st : Store} {p : String} {e : Entry}
    (h : selectPath st p = some e) : e.path = p := by
  induction st with
  | nil => simp [selectPath, List.find?] at h
  | cons x t ih =>
    simp only [selectPath, List.find?] at h ih
    cases hx : (x.path == p) with
    | true =>
      rw [hx] at h
      injection h with h1
      subst h1
      exact beq_iff_eq.mp hx
    | false =>
      rw [hx] at h
      exact ih h

theorem stat_of_found {p : String} {st : Store} {f : Entry}
    (hf : selectPath st p = some f) :
    DOFS.stat p st = (.ok (mkStats f), st) := by
  unfold DOFS.stat
  split
  · next h0 => rw [h0] at hf; cases hf
  · next f' hf' =>
    rw [hf'] at hf
    injection hf with h1
    subst h1
    rfl

theorem selectPath_append_singleton {st : Store} {p : String} {e : Entry}
    (h : selectPath st p = none) (he : e.path = p) :
    selectPath (st ++ [e]) p = some e := by
  rw [selectPath_append_none h]
  simp [selectPath, List.find?, he]

/-- C6 (amended): a successful cross-shard `copyFile` stores at the
(normalized) destination an entry whose bytes and mode equal the source
entry's, and leaves the source entry unchanged except for its `atime`,
which the read step sets to the operation time (src/fs.js line 543).
The mode is propagated through `options.mode || 0o666`, hence the
`se.mode ≠ 0` hypothesis. -/
theorem crossCopy_copies_and_touches_only_atime
    (fuel : Nat) (src dest : String) (now : Nat) (g : GState) (se : Entry)
    (hne : getInstanceName src ≠ getInstanceName dest)
    (hse : selectPath (getShard g (getInstanceName src)) src = some se)
    (hmode : se.mode ≠ 0)
    (hdest : normalizePath dest = dest)
    (hok : (copyFileF fuel src dest now g).1 = .ok ()) :
    (∃ de, selectPath (getShard (copyFileF fuel src dest now g).2
        (getInstanceName dest)) dest = some de ∧
      de.content.getD [] = se.content.getD [] ∧ de.mode = se.mode) ∧
    selectPath (getShard (copyFileF fuel src dest now g).2
        (getInstanceName src)) src = some { se with atime := now } := by
  have hcf : copyFileF fuel src dest now g
      = crossCopySteps 4 fuel src dest now g := by
    simp only [copyFileF, if_neg hne]
  rw [hcf] at hok ⊢
  simp only [crossCopySteps] at hok ⊢
  rw [if_neg (by norm_num : ¬(4 : Nat) = 0)] at hok ⊢
  rcases hE : ensureParentExists dest fuel now g with ⟨r1, g1⟩
  rw [hE] at hok
  cases r1 with
  | error e1 => exact Except.noConfusion hok
  | ok u1 =>
    simp only [] at hok ⊢
    rw [if_neg (by norm_num : ¬(4 : Nat) = 1)] at hok ⊢
    rcases hR : runOn (getInstanceName src) g1 (DOFS.readFileBuffer src now)
      with ⟨r2, g2⟩
    rw [hR] at hok
    cases r2 with
    | error e2 => exact Except.noConfusion hok
    | ok bs =>
      simp only [] at hok ⊢
      rw [if_neg (by norm_num : ¬(4 : Nat) = 2)] at hok ⊢
      rcases hS : runOn (getInstanceName src) g2 (DOFS.stat src) with ⟨r3, g3⟩
      rw [hS] at hok
      cases r3 with
      | error e3 => exact Except.noConfusion hok
      | ok stats =>
        simp only [] at hok ⊢
        rw [if_neg (by norm_num : ¬(4 : Nat) = 3)] at hok ⊢
        obtain ⟨ds, hds, hdirs⟩ :=
          ensure_shards dest fuel now g (getInstanceName src)
        have hE2 : (ensureParentExists dest fuel now g).2 = g1 :=
          congrArg Prod.snd hE
        rw [hE2] at hds
        have hse1 : selectPath (getShard g1 (getInstanceName src)) src
            = some se := by
          rw [hds]; exact selectPath_append_left hse ds
        have hRB : (DOFS.readFileBuffer src now
            (getShard g1 (getInstanceName src))).1 = .ok bs :=
          congrArg Prod.fst hR
        have hg2 : g2 = setShard g1 (getInstanceName src)
            (DOFS.readFileBuffer src now (getShard g1 (getInstanceName src))).2 :=
          (congrArg Prod.snd hR).symm
        rcases readFileBuffer_spec src now (getShard g1 (getInstanceName src))
          with ⟨f, hf, hft, hfrun⟩ | ⟨hfail, _⟩
        swap
        · rw [hRB] at hfail; simp [isOkB] at hfail
        rw [hse1] at hf
        injection hf with hf1
        subst hf1
        have hv : (DOFS.readFileBuffer src now
            (getShard g1 (getInstanceName src))).1
            = .ok (se.content.getD []) := congrArg Prod.fst hfrun
        rw [hRB] at hv
        injection hv with hbs
        have hsd2 : (DOFS.readFileBuffer src now
            (getShard g1 (getInstanceName src))).2
            = (getShard g1 (getInstanceName src)).map
                (fun e => if e.path == src then { e with atime := now } else e) :=
          congrArg Prod.snd hfrun
        have hg2sn : getShard g2 (getInstanceName src)
            = (getShard g1 (getInstanceName src)).map
                (fun e => if e.path == src then { e with atime := now } else e) := by
          rw [hg2, getShard_setShard, if_pos rfl, hsd2]
        have hbump : selectPath (getShard g2 (getInstanceName src)) src
            = some { se with atime := now } := by
          rw [hg2sn, selectPath_map_update_self _ _
            (fun e => { e with atime := now }) (fun _ => rfl), hse1]
          rfl
        have hSB : (DOFS.stat src (getShard g2 (getInstanceName src))).1
            = .ok stats := congrArg Prod.fst hS
        have hg3 : g3 = setShard g2 (getInstanceName src)
            (DOFS.stat src (getShard g2 (getInstanceName src))).2 :=
          (congrArg Prod.snd hS).symm
        have hstats : stats = mkStats { se with atime := now } := by
          have h6 : (DOFS.stat src (getShard g2 (getInstanceName src))).1
              = .ok (mkStats { se with atime := now }) := by
            rw [stat_of_found hbump]
          rw [hSB] at h6
          exact Except.ok.inj h6
        have hg3sn : getShard g3 (getInstanceName src)
            = getShard g2 (getInstanceName src) := by
          rw [hg3, getShard_setShard, if_pos rfl, stat_store_eq]
        have hg3dn : getShard g3 (getInstanceName dest)
            = getShard g2 (getInstanceName dest) := by
          rw [hg3, getShard_setShard, if_neg (Ne.symm hne)]
        have hokW : (DOFS.writeFileBuffer dest bs (some stats.mode) now
            (getShard g3 (getInstanceName dest))).1 = .ok () := hok
        have hmodes : stats.mode = se.mode := by rw [hstats]; rfl
        have hfin : (runOn (getInstanceName dest) g3
            (DOFS.writeFileBuffer dest bs (some stats.mode) now)).2
            = setShard g3 (getInstanceName dest)
                (DOFS.writeFileBuffer dest bs (some stats.mode) now
                  (getShard g3 (getInstanceName dest))).2 := rfl
        rw [hfin]
        constructor
        · rw [getShard_setShard, if_pos rfl]
          rcases writeFileBuffer_spec dest bs (some stats.mode) now
              (getShard g3 (getInstanceName dest)) with
            ⟨e0, he0, hrunW⟩ | ⟨he0, hrunW⟩ | ⟨hfailW, _⟩
          · have hsW : (DOFS.writeFileBuffer dest bs (some stats.mode) now
                (getShard g3 (getInstanceName dest))).2
                = (getShard g3 (getInstanceName dest)).map
                    (fun x => if x.path == normalizePath dest then
                      { x with content := some bs, size := bs.length,
                               mode := jsOrNat (some stats.mode) 0o666,
                               mtime := now, atime := now }
                    else x) := congrArg Prod.snd hrunW
            rw [hsW, hdest]
            rw [hdest] at he0
            rw [selectPath_map_update_self _ _
              (fun x =>
                { x with content := some bs, size := bs.length,
                         mode := jsOrNat (some stats.mode) 0o666,
                         mtime := now, atime := now }) (fun _ => rfl), he0]
            refine ⟨_, rfl, ?_, ?_⟩
            · show (some bs).getD [] = se.content.getD []
              simpa using hbs
            · show jsOrNat (some stats.mode) 0o666 = se.mode
              rw [hmodes]
              simp [jsOrNat, hmode]
          · rw [congrArg Prod.snd hrunW]
            simp only []
            rw [hdest] at he0
            rw [selectPath_append_singleton he0 hdest]
            refine ⟨_, rfl, ?_, ?_⟩
            · show (some bs).getD [] = se.content.getD []
              simpa using hbs
            · show jsOrNat (some stats.mode) 0o666 = se.mode
              rw [hmodes]
              simp [jsOrNat, hmode]
          · rw [hokW] at hfailW
            simp [isOkB] at hfailW
        · rw [getShard_setShard, if_neg hne, hg3sn]
          exact hbump

theorem readFileBuffer_of_file {p : String} {st : Store} {f : Entry} (now : Nat)
    (hf : selectPath st p = some f) (ht : f.type = EType.file) :
    DOFS.readFileBuffer p now st
      = (.ok (f.content.getD []),
         st.map (fun e => if e.path == p then { e with atime := now } else e)) := by
  unfold DOFS.readFileBuffer
  split
  · next h0 => rw [h0] at hf; exact Option.noConfusion hf
  · next f' hf' =>
    rw [hf'] at hf
    injection hf with h1
    subst h1
    rw [if_neg (not_ne_iff.mpr ht)]

/-- C6 witness: the amended cross-shard copy theorem applied to the
concrete alice-to-bob copy over `crossG6`. -/
theorem crossCopy_copies_and_touches_only_atime_witness :
    (∃ de, selectPath (getShard (copyFileF 9 "/Users/alice/x.txt"
        "/Users/bob/x.txt" 99 crossG6).2 (getInstanceName "/Users/bob/x.txt"))
        "/Users/bob/x.txt" = some de ∧
      de.content.getD [] = aliceRow.content.getD [] ∧
      de.mode = aliceRow.mode) ∧
    selectPath (getShard (copyFileF 9 "/Users/alice/x.txt" "/Users/bob/x.txt"
        99 crossG6).2 (getInstanceName "/Users/alice/x.txt"))
      "/Users/alice/x.txt" = some { aliceRow with atime := 99 } :=
  crossCopy_copies_and_touches_only_atime 9 "/Users/alice/x.txt"
    "/Users/bob/x.txt" 99 crossG6 aliceRow (by decide) (by decide) (by decide)
    (by decide) rfl

/-- C2: two-path facade operations take the single-shard route exactly
when the Shard Router's classification agrees: `getInstanceName` (the
source regex) coincides with the spec's `shardOf`, and `copyFile`, `cp`
and `rename` run the one-instance Tree Store primitive when the two
names are equal and the cross-instance orchestration when they differ
(instance handles modelled per §4.2 with stable identity, so the
source's `srcInstance === destInstance` is name equality). -/
theorem facade_dispatch_by_shard :
    (∀ p, getInstanceName p = shardOfSpec p) ∧
    (∀ fuel src dest now g,
      (shardOfSpec src = shardOfSpec dest →
        copyFileF fuel src dest now g
          = runOn (getInstanceName src) g (DOFS.copyFile src dest now)) ∧
      (shardOfSpec src ≠ shardOfSpec dest →
        copyFileF fuel src dest now g
          = crossCopySteps 4 fuel src dest now g)) ∧
    (∀ fuel src dest recursive now g,
      (shardOfSpec src = shardOfSpec dest →
        cpF (fuel + 1) src dest recursive now g
          = runOn (getInstanceName src) g
              (DOFS.cpFuel fuel src dest recursive now)) ∧
      (shardOfSpec src ≠ shardOfSpec dest →
        cpF (fuel + 1) src dest recursive now g
          = cpCrossBranch fuel src dest recursive now g)) ∧
    (∀ fuel oldPath newPath now g,
      (shardOfSpec oldPath = shardOfSpec newPath →
        renameF fuel oldPath newPath now g
          = runOn (getInstanceName oldPath) g
              (DOFS.rename oldPath newPath now)) ∧
      (shardOfSpec oldPath ≠ shardOfSpec newPath →
        renameF fuel oldPath newPath now g
          = renameCross fuel oldPath newPath now g)) := by
  have hgi : ∀ p, getInstanceName p = shardOfSpec p := fun _ => rfl
  refine ⟨hgi, ?_, ?_, ?_⟩
  · intro fuel src dest now g
    constructor
    · intro h
      have hb : copyFileF fuel src dest now g
          = if getInstanceName src = getInstanceName dest then
              runOn (getInstanceName src) g (DOFS.copyFile src dest now)
            else crossCopySteps 4 fuel src dest now g := rfl
      rw [hb, if_pos (by rw [hgi, hgi]; exact h)]
    · intro h
      have hb : copyFileF fuel src dest now g
          = if getInstanceName src = getInstanceName dest then
              runOn (getInstanceName src) g (DOFS.copyFile src dest now)
            else crossCopySteps 4 fuel src dest now g := rfl
      rw [hb, if_neg (by rw [hgi, hgi]; exact h)]
  · intro fuel src dest recursive now g
    constructor
    · intro h
      have hb : cpF (fuel + 1) src dest recursive now g
          = if getInstanceName src = getInstanceName dest then
              runOn (getInstanceName src) g
                (DOFS.cpFuel fuel src dest recursive now)
            else cpCrossBranch fuel src dest recursive now g := rfl
      rw [hb, if_pos (by rw [hgi, hgi]; exact h)]
    · intro h
      have hb : cpF (fuel + 1) src dest recursive now g
          = if getInstanceName src = getInstanceName dest then
              runOn (getInstanceName src) g
                (DOFS.cpFuel fuel src dest recursive now)
            else cpCrossBranch fuel src dest recursive now g := rfl
      rw [hb, if_neg (by rw [hgi, hgi]; exact h)]
  · intro fuel oldPath newPath now g
    constructor
    · intro h
      have hb : renameF fuel oldPath newPath now g
          = if getInstanceName oldPath = getInstanceName newPath then
              runOn (getInstanceName oldPath) g
                (DOFS.rename oldPath newPath now)
            else renameCross fuel oldPath newPath now g := rfl
      rw [hb, if_pos (by rw [hgi, hgi]; exact h)]
    · intro h
      have hb : renameF fuel oldPath newPath now g
          = if getInstanceName oldPath = getInstanceName newPath then
              runOn (getInstanceName oldPath) g
                (DOFS.rename oldPath newPath now)
            else renameCross fuel oldPath newPath now g := rfl
      rw [hb, if_neg (by rw [hgi, hgi]; exact h)]

/-- C2 witness: the dispatch theorem applied at concrete paths — a
same-shard pair (both owned by shard `a`), a cross-shard pair
(`a` versus `default`), a cross-shard `cp` pair (`a` versus `b`) and a
same-shard `rename` pair (both `default`). -/
theorem facade_dispatch_by_shard_witness :
    copyFileF 3 "/Users/a/x" "/Users/a/y" 0 emptyG
      = runOn (getInstanceName "/Users/a/x") emptyG
          (DOFS.copyFile "/Users/a/x" "/Users/a/y" 0) ∧
    copyFileF 3 "/Users/a/x" "/tmp/y" 0 emptyG
      = crossCopySteps 4 3 "/Users/a/x" "/tmp/y" 0 emptyG ∧
    cpF 3 "/Users/a/x" "/Users/b/y" true 0 emptyG
      = cpCrossBranch 2 "/Users/a/x" "/Users/b/y" true 0 emptyG ∧
    renameF 3 "/x" "/y" 0 emptyG
      = runOn (getInstanceName "/x") emptyG (DOFS.rename "/x" "/y" 0) :=
  ⟨(facade_dispatch_by_shard.2.1 3 "/Users/a/x" "/Users/a/y" 0 emptyG).1
      (by decide),
   (facade_dispatch_by_shard.2.1 3 "/Users/a/x" "/tmp/y" 0 emptyG).2
      (by decide),
   (facade_dispatch_by_shard.2.2.1 2 "/Users/a/x" "/Users/b/y" true 0
      emptyG).2 (by decide),
   (facade_dispatch_by_shard.2.2.2 3 "/x" "/y" 0 emptyG).1 (by decide)⟩

/-- C7 (amended): a `writeFile` that creates a new entry (no entry at
the normalized path) with no explicit mode option stores the default
mode `0o666` — the source's `options.mode || 0o666` — not `0o644`. -/
theorem writeFile_create_mode_666
    (st : Store) (p : String) (data : List Nat) (now : Nat)
    (he : selectPath st (normalizePath p) = none)
    (hok : (DOFS.writeFileBuffer p data none now st).1 = .ok ()) :
    ∃ e, selectPath (DOFS.writeFileBuffer p data none now st).2
        (normalizePath p) = some e ∧ e.mode = 0o666 := by
  rcases writeFileBuffer_spec p data none now st with
    ⟨e0, he0, hrun⟩ | ⟨he0, hrun⟩ | ⟨hfail, _⟩
  · rw [he] at he0; exact Option.noConfusion he0
  · have hsnd : (DOFS.writeFileBuffer p data none now st).2
        = st ++ [{ path := normalizePath p,
                   parent_path := getParentPath (normalizePath p),
                   name := getFileName (normalizePath p), type := EType.file,
                   content := some data, size := data.length,
                   mode := jsOrNat none 0o666, uid := 0, gid := 0,
                   mtime := now, ctime := now, atime := now }] :=
      congrArg Prod.snd hrun
    rw [hsnd, selectPath_append_singleton he rfl]
    exact ⟨_, rfl, rfl⟩
  · rw [hok] at hfail; simp [isOkB] at hfail

/-- C7 witness: creating `/f` in an empty store with no mode option. -/
theorem writeFile_create_mode_666_witness :
    ∃ e, selectPath (DOFS.writeFileBuffer "/f" [1] none 50 ([] : Store)).2
        (normalizePath "/f") = some e ∧ e.mode = 0o666 :=
  writeFile_create_mode_666 [] "/f" [1] 50 (by decide) rfl

/-- C8: `writeFileBuffer` on an existing entry preserves `ctime` while
setting content, size, mode (`options.mode || 0o666`), mtime and atime
to the new values; on creation (no entry at the normalized path) the
new row carries `mtime = ctime = atime = now`. -/
theorem writeFile_timestamp_semantics
    (st : Store) (p : String) (data : List Nat) (modeOpt : Option Nat)
    (now : Nat) :
    (∀ e, selectPath st (normalizePath p) = some e →
      (DOFS.writeFileBuffer p data modeOpt now st).1 = .ok () →
      ∃ e', selectPath (DOFS.writeFileBuffer p data modeOpt now st).2
          (normalizePath p) = some e' ∧
        e'.ctime = e.ctime ∧ e'.content = some data ∧
        e'.size = data.length ∧ e'.mode = jsOrNat modeOpt 0o666 ∧
        e'.mtime = now ∧ e'.atime = now) ∧
    (selectPath st (normalizePath p) = none →
      (DOFS.writeFileBuffer p data modeOpt now st).1 = .ok () →
      ∃ e', selectPath (DOFS.writeFileBuffer p data modeOpt now st).2
          (normalizePath p) = some e' ∧
        e'.mtime = now ∧ e'.ctime = now ∧ e'.atime = now ∧
        e'.content = some data) := by
  constructor
  · intro e he hok
    rcases writeFileBuffer_spec p data modeOpt now st with
      ⟨e0, he0, hrun⟩ | ⟨he0, hrun⟩ | ⟨hfail, _⟩
    · rw [he] at he0
      injection he0 with h1
      subst h1
      have hsnd : (DOFS.writeFileBuffer p data modeOpt now st).2
          = st.map (fun x => if x.path == normalizePath p then
              { x with content := some data, size := data.length,
                       mode := jsOrNat modeOpt 0o666, mtime := now,
                       atime := now }
            else x) := congrArg Prod.snd hrun
      rw [hsnd, selectPath_map_update_self _ _
        (fun x =>
          { x with content := some data, size := data.length,
                   mode := jsOrNat modeOpt 0o666, mtime := now,
                   atime := now }) (fun _ => rfl), he]
      exact ⟨_, rfl, rfl, rfl, rfl, rfl, rfl, rfl⟩
    · rw [he] at he0; exact Option.noConfusion he0
    · rw [hok] at hfail; simp [isOkB] at hfail
  · intro he hok
    rcases writeFileBuffer_spec p data modeOpt now st with
      ⟨e0, he0, hrun⟩ | ⟨he0, hrun⟩ | ⟨hfail, _⟩
    · rw [he] at he0; exact Option.noConfusion he0
    · have hsnd : (DOFS.writeFileBuffer p data modeOpt now st).2
          = st ++ [{ path := normalizePath p,
                     parent_path := getParentPath (normalizePath p),
                     name := getFileName (normalizePath p),
                     type := EType.file, content := some data,
                     size := data.length, mode := jsOrNat modeOpt 0o666,
                     uid := 0, gid := 0, mtime := now, ctime := now,
                     atime := now }] := congrArg Prod.snd hrun
      rw [hsnd, selectPath_append_singleton he rfl]
      exact ⟨_, rfl, rfl, rfl, rfl, rfl⟩
    · rw [hok] at hfail; simp [isOkB] at hfail

/-- C8 witness: overwriting `/a/f` of `fileStore` (ctime stays 1, the
rest updates to the call time) and creating `/a/g` (all three
timestamps set to the call time). -/
theorem writeFile_timestamp_semantics_witness :
    (∃ e', selectPath (DOFS.writeFileBuffer "/a/f" [5, 6] (some 0o600) 77
        fileStore).2 (normalizePath "/a/f") = some e' ∧
      e'.ctime = (mkRow "/a/f" (some "/a") "f" EType.file (some [1]) 1
        0o666 1 1 1).ctime ∧
      e'.content = some [5, 6] ∧ e'.size = [5, 6].length ∧
      e'.mode = jsOrNat (some 0o600) 0o666 ∧ e'.mtime = 77 ∧
      e'.atime = 77) ∧
    (∃ e', selectPath (DOFS.writeFileBuffer "/a/g" [9] none 88
        fileStore).2 (normalizePath "/a/g") = some e' ∧
      e'.mtime = 88 ∧ e'.ctime = 88 ∧ e'.atime = 88 ∧
      e'.content = some [9]) :=
  ⟨(writeFile_timestamp_semantics fileStore "/a/f" [5, 6] (some 0o600) 77).1
      (mkRow "/a/f" (some "/a") "f" EType.file (some [1]) 1 0o666 1 1 1)
      (by decide) rfl,
   (writeFile_timestamp_semantics fileStore "/a/g" [9] none 88).2
      (by decide) rfl⟩

/-- C9 (amended): for a path `p` that is already in normalized form and
is not currently occupied by a directory, `writeFile(p, bytes)` followed
by `readFile(p)` with no encoding returns exactly `bytes`. -/
theorem writeFile_then_readFile_returns_bytes
    (st : Store) (p : String) (data : List Nat) (now now2 : Nat)
    (hnorm : normalizePath p = p)
    (hfile : (selectPath st p).all (fun e => e.type == EType.file) = true)
    (hok : (DOFS.writeFileBuffer p data none now st).1 = .ok ()) :
    okOf (DOFS.readFile p now2
        (DOFS.writeFileBuffer p data none now st).2).1 = some data := by
  rcases writeFileBuffer_spec p data none now st with
    ⟨e0, he0, hrun⟩ | ⟨he0, hrun⟩ | ⟨hfail, _⟩
  · rw [hnorm] at he0
    have htyp : e0.type = EType.file := by
      rw [he0] at hfile
      simpa [Option.all] using hfile
    have hsnd : (DOFS.writeFileBuffer p data none now st).2
        = st.map (fun x => if x.path == normalizePath p then
            { x with content := some data, size := data.length,
                     mode := jsOrNat none 0o666, mtime := now, atime := now }
          else x) := congrArg Prod.snd hrun
    rw [hsnd, hnorm]
    have hsel : selectPath (st.map (fun x => if x.path == p then
        { x with content := some data, size := data.length,
                 mode := jsOrNat none 0o666, mtime := now, atime := now }
      else x)) p
        = some { e0 with content := some data, size := data.length,
                         mode := jsOrNat none 0o666, mtime := now,
                         atime := now } := by
      rw [selectPath_map_update_self _ _
        (fun x =>
          { x with content := some data, size := data.length,
                   mode := jsOrNat none 0o666, mtime := now, atime := now })
        (fun _ => rfl), he0]
      rfl
    show okOf (DOFS.readFileBuffer p now2 _).1 = some data
    rw [readFileBuffer_of_file now2 hsel htyp]
    rfl
  · rw [hnorm] at he0
    have hsnd : (DOFS.writeFileBuffer p data none now st).2
        = st ++ [{ path := normalizePath p,
                   parent_path := getParentPath (normalizePath p),
                   name := getFileName (normalizePath p), type := EType.file,
                   content := some data, size := data.length,
                   mode := jsOrNat none 0o666, uid := 0, gid := 0,
                   mtime := now, ctime := now, atime := now }] :=
      congrArg Prod.snd hrun
    rw [hsnd]
    have hsel : selectPath (st ++
        [{ path := normalizePath p,
           parent_path := getParentPath (normalizePath p),
           name := getFileName (normalizePath p), type := EType.file,
           content := some data, size := data.length,
           mode := jsOrNat none 0o666, uid := 0, gid := 0,
           mtime := now, ctime := now, atime := now }]) p
        = some { path := normalizePath p,
                 parent_path := getParentPath (normalizePath p),
                 name := getFileName (normalizePath p), type := EType.file,
                 content := some data, size := data.length,
                 mode := jsOrNat none 0o666, uid := 0, gid := 0,
                 mtime := now, ctime := now, atime := now } :=
      selectPath_append_singleton he0 hnorm
    show okOf (DOFS.readFileBuffer p now2 _).1 = some data
    rw [readFileBuffer_of_file now2 hsel rfl]
    rfl
  · rw [hok] at hfail; simp [isOkB] at hfail

/-- C9 witness: write `[2]` to the fresh normalized path `/a/g` of
`fileStore`, then read it back byte-for-byte. -/
theorem writeFile_then_readFile_returns_bytes_witness :
    okOf (DOFS.readFile "/a/g" 12
        (DOFS.writeFileBuffer "/a/g" [2] none 11 fileStore).2).1
      = some [2] :=
  writeFile_then_readFile_returns_bytes fileStore "/a/g" [2] 11 12
    (by decide) (by decide) rfl

/-- C10: `stat` never mutates the store: at the Tree Store level the
returned store is the input store whatever the outcome, and at the
facade level every shard of the instance map is unchanged. -/
theorem stat_never_mutates :
    ∀ path : String, (∀ st : Store, (DOFS.stat path st).2 = st) ∧
      (∀ (g : GState) (n : String), getShard (statF path g).2 n
        = getShard g n) :=
  fun path => ⟨fun st => stat_store_eq path st, fun g n => statF_shard path g n⟩

theorem ensure_then_read_effects
    (src dest : String) (fuel now : Nat) (g g1 : GState) (u : Unit)
    (bs : List Nat) (g2 : GState)
    (hE : ensureParentExists dest fuel now g = (.ok u, g1))
    (hR : runOn (getInstanceName src) g1 (DOFS.readFileBuffer src now)
      = (.ok bs, g2)) :
    (∀ n e, e ∈ getShard g n →
      e ∈ getShard g2 n ∨
      (n = getInstanceName src ∧ e.path = src ∧
        { e with atime := now } ∈ getShard g2 n)) ∧
    (∀ n e', e' ∈ getShard g2 n →
      e' ∈ getShard g n ∨ e'.type = EType.directory ∨
      (n = getInstanceName src ∧ ∃ e, e ∈ getShard g n ∧ e.path = src ∧
        e' = { e with atime := now })) := by
  have hRB : (DOFS.readFileBuffer src now
      (getShard g1 (getInstanceName src))).1 = .ok bs := congrArg Prod.fst hR
  have hg2 : g2 = setShard g1 (getInstanceName src)
      (DOFS.readFileBuffer src now (getShard g1 (getInstanceName src))).2 :=
    (congrArg Prod.snd hR).symm
  rcases readFileBuffer_spec src now (getShard g1 (getInstanceName src))
    with ⟨f, hf, hft, hfrun⟩ | ⟨hfail, _⟩
  swap
  · rw [hRB] at hfail; simp [isOkB] at hfail
  have hsd2 : (DOFS.readFileBuffer src now
      (getShard g1 (getInstanceName src))).2
      = (getShard g1 (getInstanceName src)).map
          (fun e => if e.path == src then { e with atime := now } else e) :=
    congrArg Prod.snd hfrun
  have hE2 : (ensureParentExists dest fuel now g).2 = g1 :=
    congrArg Prod.snd hE
  have hg2n : ∀ n, getShard g2 n
      = if n = getInstanceName src then
          (getShard g1 n).map
            (fun e => if e.path == src then { e with atime := now } else e)
        else getShard g1 n := by
    intro n
    rw [hg2, getShard_setShard]
    by_cases hn : n = getInstanceName src
    · rw [if_pos hn, if_pos hn, hsd2, hn]
    · rw [if_neg hn, if_neg hn]
  constructor
  · intro n e he
    obtain ⟨ds, hds, hdirs⟩ := ensure_shards dest fuel now g n
    rw [hE2] at hds
    have he1 : e ∈ getShard g1 n := by
      rw [hds]; exact List.mem_append_left ds he
    rw [hg2n n]
    by_cases hn : n = getInstanceName src
    · rw [if_pos hn]
      by_cases hp : e.path = src
      · right
        refine ⟨hn, hp, ?_⟩
        have hb : (fun x : Entry =>
            if x.path == src then { x with atime := now } else x) e
            = { e with atime := now } := by
          simp [hp]
        rw [← hb]
        exact List.mem_map_of_mem _ he1
      · left
        have hb : (fun x : Entry =>
            if x.path == src then { x with atime := now } else x) e = e := by
          simp [hp]
        rw [← hb]
        exact List.mem_map_of_mem _ he1
    · rw [if_neg hn]
      left
      exact he1
  · intro n e' he'
    obtain ⟨ds, hds, hdirs⟩ := ensure_shards dest fuel now g n
    rw [hE2] at hds
    rw [hg2n n] at he'
    by_cases hn : n = getInstanceName src
    · rw [if_pos hn] at he'
      obtain ⟨x, hx, hxe⟩ := List.mem_map.mp he'
      rw [hds] at hx
      rcases List.mem_append.mp hx with hx1 | hx1
      · by_cases hp : x.path = src
        · right; right
          exact ⟨hn, x, hx1, hp, by rw [← hxe]; simp [hp]⟩
        · left
          have hxe' : e' = x := by rw [← hxe]; simp [hp]
          rw [hxe']
          exact hx1
      · right; left
        have hxt : e'.type = x.type := by
          rw [← hxe]
          by_cases hp : x.path = src <;> simp [hp]
        rw [hxt]
        exact hdirs x hx1
    · rw [if_neg hn] at he'
      rw [hds] at he'
      rcases List.mem_append.mp he' with h | h
      · left; exact h
      · right; left; exact hdirs _ h

/-- C5 (amended): the cross-shard `copyFile` orchestration first ensures
the destination parent exists (recursively creating directories in the
parent path's shard), then reads the bytes and stat from the source
shard, then writes into the destination shard.  A failure after the read
but before the destination write does **not** leave the two shards
unchanged: the state so far differs from the initial one exactly by (a)
directory entries created by the ensure-parent step and (b) the source
entry's atime, which the read set to the operation time; every
pre-existing entry otherwise survives unchanged, and every new entry is
a directory. -/
theorem crossCopy_interrupted_effects
    (k fuel : Nat) (src dest : String) (now : Nat) (g : GState)
    (hk : k = 2 ∨ k = 3)
    (_hne : getInstanceName src ≠ getInstanceName dest)
    (hok : (crossCopySteps k fuel src dest now g).1 = .ok ()) :
    (∀ n e, e ∈ getShard g n →
      e ∈ getShard (crossCopySteps k fuel src dest now g).2 n ∨
      (n = getInstanceName src ∧ e.path = src ∧
        { e with atime := now }
          ∈ getShard (crossCopySteps k fuel src dest now g).2 n)) ∧
    (∀ n e', e' ∈ getShard (crossCopySteps k fuel src dest now g).2 n →
      e' ∈ getShard g n ∨ e'.type = EType.directory ∨
      (n = getInstanceName src ∧ ∃ e, e ∈ getShard g n ∧ e.path = src ∧
        e' = { e with atime := now })) := by
  rcases hk with hk | hk <;> subst hk
  · simp only [crossCopySteps] at hok ⊢
    rw [if_neg (by norm_num : ¬(2 : Nat) = 0)] at hok ⊢
    rcases hE : ensureParentExists dest fuel now g with ⟨r1, g1⟩
    rw [hE] at hok
    cases r1 with
    | error e1 => exact Except.noConfusion hok
    | ok u1 =>
      simp only [] at hok ⊢
      rw [if_neg (by norm_num : ¬(2 : Nat) = 1)] at hok ⊢
      rcases hR : runOn (getInstanceName src) g1 (DOFS.readFileBuffer src now)
        with ⟨r2, g2⟩
      rw [hR] at hok
      cases r2 with
      | error e2 => exact Except.noConfusion hok
      | ok bs =>
        simp only [] at hok ⊢
        rw [if_pos trivial] at hok ⊢
        exact ensure_then_read_effects src dest fuel now g g1 u1 bs g2 hE hR
  · simp only [crossCopySteps] at hok ⊢
    rw [if_neg (by norm_num : ¬(3 : Nat) = 0)] at hok ⊢
    rcases hE : ensureParentExists dest fuel now g with ⟨r1, g1⟩
    rw [hE] at hok
    cases r1 with
    | error e1 => exact Except.noConfusion hok
    | ok u1 =>
      simp only [] at hok ⊢
      rw [if_neg (by norm_num : ¬(3 : Nat) = 1)] at hok ⊢
      rcases hR : runOn (getInstanceName src) g1 (DOFS.readFileBuffer src now)
        with ⟨r2, g2⟩
      rw [hR] at hok
      cases r2 with
      | error e2 => exact Except.noConfusion hok
      | ok bs =>
        simp only [] at hok ⊢
        rw [if_neg (by norm_num : ¬(3 : Nat) = 2)] at hok ⊢
        rcases hS : runOn (getInstanceName src) g2 (DOFS.stat src)
          with ⟨r3, g3⟩
        rw [hS] at hok
        cases r3 with
        | error e3 => exact Except.noConfusion hok
        | ok stats =>
          simp only [] at hok ⊢
          rw [if_pos trivial] at hok ⊢
          have hg3 : g3 = setShard g2 (getInstanceName src)
              (DOFS.stat src (getShard g2 (getInstanceName src))).2 :=
            (congrArg Prod.snd hS).symm
          have hg3n : ∀ n, getShard g3 n = getShard g2 n := by
            intro n
            rw [hg3, getShard_setShard, stat_store_eq]
            by_cases hn : n = getInstanceName src
            · rw [if_pos hn, hn]
            · rw [if_neg hn]
          obtain ⟨hA, hB⟩ :=
            ensure_then_read_effects src dest fuel now g g1 u1 bs g2 hE hR
          constructor
          · intro n e he
            rw [hg3n n]
            exact hA n e he
          · intro n e' he'
            rw [hg3n n] at he'
            exact hB n e' he'

/-- C5 witness: the amended theorem applied to the interrupted copy of
`crossCopy_interrupted_state_changed` (stop after the read, step index
2), instantiated at the surviving `/x` row of the default shard. -/
theorem crossCopy_interrupted_effects_witness :
    mkRow "/x" (some "/") "x" EType.file (some [1, 2]) 2 0o644 10 10 10
      ∈ getShard (crossCopySteps 2 9 "/x" "/Users/bob/d/f" 20 crossG5).2
          "default" ∨
    ("default" = getInstanceName "/x" ∧
      (mkRow "/x" (some "/") "x" EType.file (some [1, 2]) 2 0o644
        10 10 10).path = "/x" ∧
      { mkRow "/x" (some "/") "x" EType.file (some [1, 2]) 2 0o644
          10 10 10 with atime := 20 }
        ∈ getShard (crossCopySteps 2 9 "/x" "/Users/bob/d/f" 20 crossG5).2
            "default") :=
  (crossCopy_interrupted_effects 2 9 "/x" "/Users/bob/d/f" 20 crossG5
    (Or.inl rfl) (by decide) rfl).1 "default"
    (mkRow "/x" (some "/") "x" EType.file (some [1, 2]) 2 0o644 10 10 10)
    (by decide)
